import Mathlib

/-!
Verification of the smartdoor Raspberry Pi controller.

Shallow embedding of the core components:
  * `src/smartdoor/protocol.py`  — K230 frame codec (`build_command`, `parse_message`)
  * `src/utils/protocol.py`      — legacy length-prefixed frame codec
  * `src/smartdoor/face_manager.py` — face decision state machine
  * `src/smartdoor/motor.py`     — stepper-motor pulse generator
  * `src/smartdoor/k230_serial.py` — command correlator (`send_command`)

Python strings are modelled as `List Char`; `time.time()` values and the
real arithmetic of the motor ramp are modelled exactly over `ℚ`.
-/

namespace SmartDoor

/-! ## Python string primitives -/

/-- Characters removed by Python's `str.strip()` (ASCII whitespace). -/
def isPySpace (c : Char) : Bool :=
  c = ' ' || c = '\t' || c = '\n' || c = '\x0d' || c = '\x0b' || c = '\x0c'

/-- Python `str.strip()`: drop leading and trailing whitespace. -/
def pyStrip (s : List Char) : List Char :=
  ((s.dropWhile isPySpace).reverse.dropWhile isPySpace).reverse

/-- ASCII decimal digit test (model of `str.isdigit` per character). -/
def isDigitChar (c : Char) : Bool :=
  '0' ≤ c && c ≤ '9'

/-- Python `str.isdigit()`: nonempty and all characters are digits. -/
def pyIsDigit (s : List Char) : Bool :=
  !s.isEmpty && s.all isDigitChar

/-- Numeric value of a digit character. -/
def digitVal (c : Char) : ℕ := c.toNat - 48

/-- Digit character of a value `< 10` (inverse of `digitVal`). -/
def digitChar (d : ℕ) : Char := Char.ofNat (48 + d)

/-- Decimal digits of a natural number, most significant first
(model of Python `str(n)` for `n ≥ 0`). -/
def natDigits (n : ℕ) : List Char :=
  if h : n < 10 then [digitChar n]
  else natDigits (n / 10) ++ [digitChar (n % 10)]
decreasing_by exact Nat.div_lt_self (by omega) (by omega)

/-- Accumulate the value of a digit string (no validity check). -/
def digitsToNat (s : List Char) : ℕ :=
  s.foldl (fun a c => 10 * a + digitVal c) 0

/-- Model of Python `int(str)`: strip whitespace, optional sign, then a
nonempty run of decimal digits; anything else raises `ValueError`,
modelled as `none`.  (Underscore digit grouping and non-ASCII digits are
not modelled.) -/
def pyInt (s : List Char) : Option ℤ :=
  let t := pyStrip s
  if t.head? = some '+' then
    if !t.tail.isEmpty && t.tail.all isDigitChar then some ((digitsToNat t.tail : ℕ) : ℤ) else none
  else if t.head? = some '-' then
    if !t.tail.isEmpty && t.tail.all isDigitChar then some (-(digitsToNat t.tail : ℤ)) else none
  else if !t.isEmpty && t.all isDigitChar then some ((digitsToNat t : ℕ) : ℤ) else none

/-- Model of Python `float(str)` restricted to the plain decimal grammar
`[sign] digits [. digits]`; anything else is `none` (`ValueError`). -/
def pyFloat (s : List Char) : Option ℚ :=
  match pyStrip s with
  | '+' :: rest => pyFloatBody rest
  | '-' :: rest => (pyFloatBody rest).map (fun q => -q)
  | t => pyFloatBody t
where
  /-- Unsigned decimal body `digits [. digits]`. -/
  pyFloatBody (t : List Char) : Option ℚ :=
    match t.span isDigitChar with
    | (intPart, []) =>
        if !intPart.isEmpty then some (digitsToNat intPart : ℚ) else none
    | (intPart, '.' :: frac) =>
        if !intPart.isEmpty && !frac.isEmpty && frac.all isDigitChar then
          some ((digitsToNat intPart : ℚ) + (digitsToNat frac : ℚ) / (10 : ℚ) ^ frac.length)
        else none
    | _ => none

/-- ASCII upper-casing of one character (model of `str.upper`). -/
def upperChar (c : Char) : Char :=
  if 'a' ≤ c && c ≤ 'z' then Char.ofNat (c.toNat - 32) else c

/-- Model of `str.upper()`. -/
def pyUpper (s : List Char) : List Char := s.map upperChar

/-- Model of `str.split(',')`. -/
def splitComma : List Char → List (List Char)
  | [] => [[]]
  | c :: cs =>
      match splitComma cs with
      | [] => [[]]
      | p :: ps => if c = ',' then [] :: p :: ps else (c :: p) :: ps

/-- Model of `','.join(parts)`. -/
def joinComma : List (List Char) → List Char
  | [] => []
  | [p] => p
  | p :: ps => p ++ ',' :: joinComma ps

/-! ## K230 protocol (`src/smartdoor/protocol.py`, `src/smartdoor/enums.py`) -/

/-- `K230ResponseStatus` enum from `enums.py`. -/
inductive K230ResponseStatus
  | OK
  | PONG
  | ERR
deriving DecidableEq, Repr

/-- `FaceDetection` dataclass. -/
structure FaceDetection where
  x : ℤ
  y : ℤ
  w : ℤ
  h : ℤ
deriving DecidableEq, Repr

/-- `FaceRecognition` dataclass. -/
structure FaceRecognition where
  x : ℤ
  y : ℤ
  w : ℤ
  h : ℤ
  name : List Char
  score : ℤ
deriving DecidableEq, Repr

/-- `FaceRecognition.is_known`: `name != "unknown" and score > 0`. -/
def FaceRecognition.is_known (r : FaceRecognition) : Bool :=
  r.name ≠ "unknown".toList && r.score > 0

/-- `K230Response` dataclass. -/
structure K230Response where
  length : ℤ
  status : K230ResponseStatus
  data : List (List Char)
deriving DecidableEq, Repr

/-- Parsed-message variants returned by `K230Protocol.parse_message`
(the `type` tag of the returned dict). -/
inductive K230Msg
  | response (r : K230Response)
  | face_detection (d : FaceDetection)
  | face_recognition (r : FaceRecognition)
deriving DecidableEq, Repr

namespace K230Protocol

/-- `K230Protocol.DATA_TYPE_FACE_DETECTION = "06"`. -/
def DATA_TYPE_FACE_DETECTION : List Char := "06".toList

/-- `K230Protocol.DATA_TYPE_FACE_RECOGNITION = "08"`. -/
def DATA_TYPE_FACE_RECOGNITION : List Char := "08".toList

/-- `K230Protocol.build_command(cmd, *args)`: `$CMD,<cmd>[,<args>...]#`
(arguments already stringified, UTF-8 encoding is the identity here). -/
def build_command (cmd : List Char) (args : List (List Char)) : List Char :=
  if args.isEmpty then
    '$' :: "CMD,".toList ++ cmd ++ ['#']
  else
    '$' :: "CMD,".toList ++ cmd ++ ',' :: joinComma args ++ ['#']

/-- `K230ResponseStatus(status_str)` with the `ValueError` fallback to `ERR`
from `_parse_response`. -/
def statusOf (s : List Char) : K230ResponseStatus :=
  if s = "OK".toList then .OK
  else if s = "PONG".toList then .PONG
  else .ERR

/-- `K230Protocol._parse_response(parts)`: `RSP,<len>,<status>,<data...>`.
The `int(parts[1])` failure (`ValueError`) yields `none`. -/
def parse_response (parts : List (List Char)) : Option K230Msg :=
  if parts.length < 3 then none
  else
    match pyInt (parts.getD 1 []) with
    | none => none
    | some len =>
        some (.response
          { length := len
            status := statusOf (pyUpper (parts.getD 2 []))
            data := parts.drop 3 })

/-- `K230Protocol._parse_data_packet(parts)`:
detection `<len>,06,<x>,<y>,<w>,<h>`, recognition
`<len>,08,<x>,<y>,<w>,<h>,<name>,<score>`.  A `ValueError` from any
`int(...)` field is caught and yields `none`. -/
def parse_data_packet (parts : List (List Char)) : Option K230Msg :=
  let data_type := parts.getD 1 []
  if data_type = DATA_TYPE_FACE_DETECTION then
    if parts.length ≥ 6 then
      match pyInt (parts.getD 2 []), pyInt (parts.getD 3 []),
            pyInt (parts.getD 4 []), pyInt (parts.getD 5 []) with
      | some x, some y, some w, some h =>
          some (.face_detection { x := x, y := y, w := w, h := h })
      | _, _, _, _ => none
    else none
  else if data_type = DATA_TYPE_FACE_RECOGNITION then
    if parts.length ≥ 8 then
      match pyInt (parts.getD 2 []), pyInt (parts.getD 3 []),
            pyInt (parts.getD 4 []), pyInt (parts.getD 5 []),
            pyInt (parts.getD 7 []) with
      | some x, some y, some w, some h, some score =>
          some (.face_recognition
            { x := x, y := y, w := w, h := h
              name := parts.getD 6 [], score := score })
      | _, _, _, _, _ => none
    else none
  else none

/-- `K230Protocol.parse_message(data)`. -/
def parse_message (data : List Char) : Option K230Msg :=
  let d := pyStrip data
  if d.head? = some '$' && d.getLast? = some '#' then
    let content := (d.drop 1).dropLast
    let parts := splitComma content
    if parts.length < 2 then none
    else
      let first := parts.getD 0 []
      if first = "RSP".toList then parse_response parts
      else if pyIsDigit first then parse_data_packet parts
      else none
  else none

end K230Protocol

/-! ## Legacy length-prefixed protocol (`src/utils/protocol.py`, `src/config.py`) -/

namespace LegacyProtocol

/-- `FuncID` constants from `src/config.py`. -/
def CMD_SWITCH_MODE : ℕ := 1
def CMD_REGISTER_FACE : ℕ := 2
def CMD_DELETE_FACE : ℕ := 3
def CMD_GET_STATUS : ℕ := 4
def CMD_STOP : ℕ := 5
def DATA_FACE_DETECT : ℤ := 6
def DATA_FACE_RECOGNITION : ℤ := 8
def DATA_STATUS : ℤ := 10
def DATA_REGISTER_RESULT : ℤ := 11
def DATA_ERROR : ℤ := 99

/-- One candidate frame `$<temp_len>,<data_str>#` built inside the
fixed-point loop of `Protocol._build_packet`. -/
def mkFull (dataStr : List Char) (tempLen : ℕ) : List Char :=
  '$' :: natDigits tempLen ++ ',' :: dataStr ++ ['#']

/-- The `for i in range(5)` fixed-point iteration of `_build_packet`:
rebuild the frame with the last length until the declared length equals
the actual length, at most five builds, keeping the last frame. -/
def fixLen (dataStr : List Char) : ℕ → ℕ → List Char
  | 0, tempLen => mkFull dataStr tempLen
  | fuel + 1, tempLen =>
      let full := mkFull dataStr tempLen
      if full.length = tempLen then full else fixLen dataStr fuel full.length

/-- `Protocol._build_packet(func_id, *args)` (arguments already
stringified; the trailing newline and UTF-8 encode included). -/
def build_packet (funcId : ℕ) (args : List (List Char)) : List Char :=
  let dataStr := joinComma (natDigits funcId :: args)
  fixLen dataStr 4 (dataStr.length + 3) ++ ['\n']

/-- Parsed payloads produced by `Protocol._parse_by_func_id` (the data
dictionaries keyed by function id). -/
inductive ParsedData
  | face_detect (x y w h : ℤ)
  | face_recognition (x y w h : ℤ) (name : List Char) (score : ℚ)
  | status (mode : ℤ) (message : List Char)
  | register_result (success : Bool) (name message : List Char)
  | error (code : ℤ) (message : List Char)
  | raw_params (params : List (List Char))
deriving DecidableEq, Repr

/-- `Protocol._parse_face_detect`. -/
def parse_face_detect (params : List (List Char)) : Option ParsedData :=
  if params.length < 4 then none
  else
    match pyInt (params.getD 0 []), pyInt (params.getD 1 []),
          pyInt (params.getD 2 []), pyInt (params.getD 3 []) with
    | some x, some y, some w, some h => some (.face_detect x y w h)
    | _, _, _, _ => none

/-- `Protocol._parse_face_recognition` (`float(params[5]) if params[5]
else 0` models the empty-string default). -/
def parse_face_recognition (params : List (List Char)) : Option ParsedData :=
  if params.length < 6 then none
  else
    match pyInt (params.getD 0 []), pyInt (params.getD 1 []),
          pyInt (params.getD 2 []), pyInt (params.getD 3 []),
          (if (params.getD 5 []).isEmpty then some 0 else pyFloat (params.getD 5 [])) with
    | some x, some y, some w, some h, some score =>
        some (.face_recognition x y w h (params.getD 4 []) score)
    | _, _, _, _, _ => none

/-- `Protocol._parse_status`. -/
def parse_status (params : List (List Char)) : Option ParsedData :=
  if params.length < 2 then none
  else
    match pyInt (params.getD 0 []) with
    | some mode => some (.status mode (params.getD 1 []))
    | none => none

/-- `Protocol._parse_register_result`. -/
def parse_register_result (params : List (List Char)) : Option ParsedData :=
  if params.length < 3 then none
  else some (.register_result (params.getD 0 [] = "1".toList)
    (params.getD 1 []) (params.getD 2 []))

/-- `Protocol._parse_error`. -/
def parse_error (params : List (List Char)) : Option ParsedData :=
  if params.length < 2 then none
  else
    match pyInt (params.getD 0 []) with
    | some code => some (.error code (params.getD 1 []))
    | none => none

/-- `Protocol._parse_by_func_id`. -/
def parse_by_func_id (funcId : ℤ) (params : List (List Char)) : Option ParsedData :=
  if funcId = DATA_FACE_DETECT then parse_face_detect params
  else if funcId = DATA_FACE_RECOGNITION then parse_face_recognition params
  else if funcId = DATA_STATUS then parse_status params
  else if funcId = DATA_REGISTER_RESULT then parse_register_result params
  else if funcId = DATA_ERROR then parse_error params
  else some (.raw_params params)

/-- `Protocol.parse_data(data)`: strip, validate `$…#` bounds, split on
commas, parse the declared length and function id, reject on a length
mismatch, then dispatch on the function id.  Every exception path
(failed `int(...)`, etc.) returns `none`. -/
def parse_data (data : List Char) : Option (ℤ × ParsedData) :=
  let d := pyStrip data
  if d.head? = some '$' && d.getLast? = some '#' then
    let content := (d.drop 1).dropLast
    let parts := splitComma content
    if parts.length < 2 then none
    else
      match pyInt (parts.getD 0 []), pyInt (parts.getD 1 []) with
      | some dataLen, some funcId =>
          if dataLen ≠ (d.length : ℤ) then none
          else (parse_by_func_id funcId (parts.drop 2)).map (funcId, ·)
      | _, _ => none
  else none

end LegacyProtocol

/-! ## Face decision state machine (`src/smartdoor/face_manager.py`)

Events carry the `time.time()` value observed at the start of the call;
callbacks are collected into an output list instead of being invoked
(the code catches every callback exception, so callback behaviour never
influences the window state). -/

/-- `RecognitionWindow` dataclass, with its dataclass defaults. -/
structure RecognitionWindow where
  start_time : ℚ := 0
  active : Bool := false
  success_reported : Bool := false
  failure_count : ℕ := 0
  last_success_user : List Char := []
  last_recognition : Option FaceRecognition := none
deriving DecidableEq, Repr

/-- The window produced by `FaceRecognitionManager._reset_window`
(and the initial window): all fields at dataclass defaults. -/
def resetWindow : RecognitionWindow := {}

/-- `FaceRecognitionManager._start_window`. -/
def startWindow (now : ℚ) : RecognitionWindow :=
  { resetWindow with start_time := now, active := true }

/-- Configuration of `FaceRecognitionManager` (`window_duration`,
`score_threshold`). -/
structure FaceConfig where
  window_duration : ℚ
  score_threshold : ℤ
deriving DecidableEq, Repr

/-- Callback invocations observed at the manager's boundary. -/
inductive Callback
  | success (user : List Char) (recognition : Option FaceRecognition)
  | reject (attempts : ℕ) (recognition : Option FaceRecognition)
deriving DecidableEq, Repr

/-- `FaceRecognitionManager._is_window_expired` at time `now`. -/
def isWindowExpired (cfg : FaceConfig) (now : ℚ) (w : RecognitionWindow) : Bool :=
  if !w.active then true
  else decide (now - w.start_time ≥ cfg.window_duration)

/-- `FaceRecognitionManager.on_face_detected` (the detection payload is
unused by the code). -/
def onFaceDetected (now : ℚ) (w : RecognitionWindow) :
    RecognitionWindow × List Callback :=
  if !w.active then (startWindow now, []) else (w, [])

/-- The expiry-handling prefix of `on_recognition_result`: if the window
is expired, report the old window's failure (when it was active, had not
succeeded and had failures) and open a fresh window. -/
def handleExpiry (cfg : FaceConfig) (now : ℚ) (w : RecognitionWindow) :
    RecognitionWindow × List Callback :=
  if isWindowExpired cfg now w then
    (startWindow now,
     if w.active && !w.success_reported && w.failure_count > 0 then
       [.reject w.failure_count w.last_recognition]
     else [])
  else (w, [])

/-- The success test of `on_recognition_result`:
`recognition.is_known and recognition.score >= self.score_threshold`. -/
def isSuccess (cfg : FaceConfig) (r : FaceRecognition) : Bool :=
  r.is_known && r.score ≥ cfg.score_threshold

/-- `FaceRecognitionManager.on_recognition_result`. -/
def onRecognitionResult (cfg : FaceConfig) (now : ℚ) (r : FaceRecognition)
    (w : RecognitionWindow) : RecognitionWindow × List Callback :=
  let step1 := handleExpiry cfg now w
  let w2 := { step1.1 with last_recognition := some r }
  if isSuccess cfg r then
    if !w2.success_reported then
      ({ w2 with success_reported := true, last_success_user := r.name },
       step1.2 ++ [.success r.name w2.last_recognition])
    else (w2, step1.2)
  else
    ({ w2 with failure_count := w2.failure_count + 1 }, step1.2)

/-- `FaceRecognitionManager.check_timeout`. -/
def checkTimeout (cfg : FaceConfig) (now : ℚ) (w : RecognitionWindow) :
    RecognitionWindow × List Callback :=
  if w.active && isWindowExpired cfg now w then
    (resetWindow,
     if !w.success_reported && w.failure_count > 0 then
       [.reject w.failure_count w.last_recognition]
     else [])
  else (w, [])

/-- External events delivered to the manager, each stamped with the
`time.time()` value at the call. -/
inductive FaceEvent
  | detect (now : ℚ) (d : FaceDetection)
  | recognize (now : ℚ) (r : FaceRecognition)
  | timeoutCheck (now : ℚ)
deriving DecidableEq, Repr

/-- One event step of the manager. -/
def faceStep (cfg : FaceConfig) (w : RecognitionWindow) :
    FaceEvent → RecognitionWindow × List Callback
  | .detect now _ => onFaceDetected now w
  | .recognize now r => onRecognitionResult cfg now r w
  | .timeoutCheck now => checkTimeout cfg now w

/-- Run a sequence of events, concatenating the emitted callbacks. -/
def faceRun (cfg : FaceConfig) (w : RecognitionWindow) :
    List FaceEvent → RecognitionWindow × List Callback
  | [] => (w, [])
  | e :: es =>
      let s := faceStep cfg w e
      let rest := faceRun cfg s.1 es
      (rest.1, s.2 ++ rest.2)

/-! ## Stepper motor (`src/smartdoor/motor.py`)

The real arithmetic of `_send_pulses` is modelled exactly over `ℚ`
(every float literal of the ramp is a dyadic or decimal constant). -/

/-- `StepperMotor` configuration fields used by `rotate`/`_send_pulses`. -/
structure MotorConfig where
  pulses_per_rev : ℕ
  min_delay : ℚ
  max_delay : ℚ
deriving DecidableEq, Repr

/-- `acc_steps = int(count * 0.2)` (and identically `dec_steps`). -/
def accSteps (count : ℕ) : ℕ := ⌊(count : ℚ) * 0.2⌋₊

/-- `min_freq = 1.0 / self.max_delay if self.max_delay > 0 else 500.0`. -/
def minFreq (m : MotorConfig) : ℚ :=
  if m.max_delay > 0 then 1 / m.max_delay else 500

/-- `max_freq = 1.0 / self.min_delay if self.min_delay > 0 else 2000.0`. -/
def maxFreq (m : MotorConfig) : ℚ :=
  if m.min_delay > 0 then 1 / m.min_delay else 2000

/-- `current_freq` of pulse `i` before the safety clamp: the trapezoidal
profile — linear ramp over the first `acc_steps` pulses, linear ramp
down over the last `dec_steps`, cruise at `max_freq` in between. -/
def rawFreq (m : MotorConfig) (count i : ℕ) : ℚ :=
  let acc := accSteps count
  let dec := accSteps count
  if i < acc then
    if acc > 1 then
      minFreq m + (maxFreq m - minFreq m) * ((i : ℚ) / ((acc - 1 : ℕ) : ℚ))
    else minFreq m
  else if i ≥ count - dec then
    let stepsRemaining := count - i
    if dec > 1 then
      minFreq m + (maxFreq m - minFreq m) *
        (((stepsRemaining - 1 : ℕ) : ℚ) / ((dec - 1 : ℕ) : ℚ))
    else minFreq m
  else maxFreq m

/-- `current_freq = max(min_freq, min(max_freq, current_freq))`. -/
def pulseFreq (m : MotorConfig) (count i : ℕ) : ℚ :=
  max (minFreq m) (min (maxFreq m) (rawFreq m count i))

/-- `delay = 1.0 / current_freq` — the full period of pulse `i`. -/
def pulseDelay (m : MotorConfig) (count i : ℕ) : ℚ :=
  1 / pulseFreq m count i

/-- The high half of pulse `i` (`GPIO HIGH` for `delay / 2`). -/
def pulseHigh (m : MotorConfig) (count i : ℕ) : ℚ := pulseDelay m count i / 2

/-- The low half of pulse `i` (`GPIO LOW` for `delay / 2`). -/
def pulseLow (m : MotorConfig) (count i : ℕ) : ℚ := pulseDelay m count i / 2

/-- `StepperMotor._send_pulses(count)`: the emitted pulse train as the
list of per-pulse periods (`count <= 0` emits nothing). -/
def sendPulses (m : MotorConfig) (count : ℕ) : List ℚ :=
  if count = 0 then []
  else (List.range count).map (pulseDelay m count)

/-- `pulses = int((angle / 360.0) * self.ppr)` — Python `int()` truncates
toward zero. -/
def rotatePulseCount (m : MotorConfig) (angle : ℚ) : ℕ :=
  (Int.toNat ⌊angle / 360 * (m.pulses_per_rev : ℚ)⌋)

/-- `StepperMotor.rotate(angle, cw)`: returns the emitted pulse train and
the level written to the direction pin (`none` when the guard `angle <= 0`
returns before touching any pin). -/
def rotate (m : MotorConfig) (angle : ℚ) (cw : Bool) : List ℚ × Option Bool :=
  if angle ≤ 0 then ([], none)
  else (sendPulses m (rotatePulseCount m angle), some cw)

/-! ## Command correlator (`src/smartdoor/k230_serial.py`)

`send_command` holds the lock for the whole send-and-wait operation, so
one call is modelled sequentially: `pending` is the hand-off queue
content when the call starts, `arrivals` the responses the reader thread
enqueues between the write and the timeout deadline (in arrival order). -/

/-- The `while not self._response_queue.empty(): get_nowait()` drain loop. -/
def drainQueue : List K230Response → List K230Response
  | [] => []
  | _ :: rest => drainQueue rest

/-- One `send_command` call: drain stale responses, write the command
bytes, then block on the queue; the result is the first response
available during the wait (`none` models the `Empty` timeout).  Returns
(queue content at the moment the command bytes are written, delivered
response, queue left behind for the next call). -/
def sendCommand (pending arrivals : List K230Response) :
    List K230Response × Option K230Response × List K230Response :=
  let atWrite := drainQueue pending
  match atWrite ++ arrivals with
  | [] => (atWrite, none, [])
  | r :: rest => (atWrite, some r, rest)

/-- Two consecutive `send_command` calls: the first starts with queue
`pending₁` and sees `arrivals₁` during its wait; between the calls the
reader enqueues `late` (e.g. a late response to the first, timed-out
command); the second sees `arrivals₂`.  Returns the second call's
(queue-at-write, response) pair. -/
def twoSends (pending₁ arrivals₁ late arrivals₂ : List K230Response) :
    List K230Response × Option K230Response :=
  let first := sendCommand pending₁ arrivals₁
  let second := sendCommand (first.2.2 ++ late) arrivals₂
  (second.1, second.2.1)

/-! ## Helper lemmas -/

lemma isDigitChar_digitChar {d : ℕ} (hd : d < 10) :
    isDigitChar (digitChar d) = true := by
  interval_cases d <;> decide

lemma isPySpace_digitChar {d : ℕ} (hd : d < 10) :
    isPySpace (digitChar d) = false := by
  interval_cases d <;> decide

lemma digitVal_digitChar {d : ℕ} (hd : d < 10) : digitVal (digitChar d) = d := by
  interval_cases d <;> decide

lemma natDigits_ne_nil (n : ℕ) : natDigits n ≠ [] := by
  rw [natDigits]
  split
  · simp
  · simp

lemma natDigits_all_digits (n : ℕ) :
    ∀ c ∈ natDigits n, isDigitChar c = true := by
  induction n using Nat.strong_induction_on with
  | _ n ih =>
      rw [natDigits]
      split
      · rename_i h
        intro c hc
        rw [List.mem_singleton] at hc
        subst hc
        exact isDigitChar_digitChar h
      · rename_i h
        intro c hc
        rcases List.mem_append.mp hc with hc | hc
        · exact ih (n / 10) (Nat.div_lt_self (by omega) (by omega)) c hc
        · rw [List.mem_singleton] at hc
          subst hc
          exact isDigitChar_digitChar (Nat.mod_lt n (by omega))

lemma isPySpace_of_digit {c : Char} (hd : isDigitChar c = true) :
    isPySpace c = false := by
  unfold isDigitChar at hd
  rcases Bool.and_eq_true _ _ |>.mp hd with ⟨h1, h2⟩
  rw [decide_eq_true_eq] at h1 h2
  unfold isPySpace
  simp only [Bool.or_eq_false_iff, decide_eq_false_iff_not]
  refine ⟨⟨⟨⟨⟨?_, ?_⟩, ?_⟩, ?_⟩, ?_⟩, ?_⟩ <;>
    · intro hEq
      rw [hEq] at h1
      exact absurd h1 (by decide)

lemma natDigits_no_space (n : ℕ) :
    ∀ c ∈ natDigits n, isPySpace c = false := fun c hc =>
  isPySpace_of_digit (natDigits_all_digits n c hc)

lemma natDigits_no_comma (n : ℕ) : ',' ∉ natDigits n := by
  intro hc
  have := natDigits_all_digits n ',' hc
  simp [isDigitChar] at this

lemma digitsToNat_concat (l : List Char) (c : Char) :
    digitsToNat (l ++ [c]) = 10 * digitsToNat l + digitVal c := by
  unfold digitsToNat
  rw [List.foldl_append]
  rfl

lemma digitsToNat_natDigits (n : ℕ) : digitsToNat (natDigits n) = n := by
  induction n using Nat.strong_induction_on with
  | _ n ih =>
      rw [natDigits]
      split
      · rename_i h
        show digitsToNat ([] ++ [digitChar n]) = n
        rw [digitsToNat_concat]
        simp [digitsToNat, digitVal_digitChar h]
      · rename_i h
        rw [digitsToNat_concat,
          ih (n / 10) (Nat.div_lt_self (by omega) (by omega)),
          digitVal_digitChar (Nat.mod_lt n (by omega))]
        omega

/-- Stripping a list with no leading/trailing whitespace is the
identity; stated for the frame shapes we build. -/
lemma pyStrip_no_space (l : List Char) (h : ∀ c ∈ l, isPySpace c = false) :
    pyStrip l = l := by
  unfold pyStrip
  have h1 : l.dropWhile isPySpace = l := by
    cases l with
    | nil => rfl
    | cons c cs =>
        rw [List.dropWhile_cons]
        rw [h c (List.mem_cons_self c cs)]
        simp
  rw [h1]
  have h2 : l.reverse.dropWhile isPySpace = l.reverse := by
    cases hrev : l.reverse with
    | nil => rfl
    | cons c cs =>
        rw [List.dropWhile_cons]
        have : c ∈ l := by
          rw [← List.mem_reverse, hrev]
          exact List.mem_cons_self c cs
        rw [h c this]
        simp
  rw [h2, List.reverse_reverse]

lemma natDigits_head_digit (n : ℕ) :
    ∃ c, (natDigits n).head? = some c ∧ isDigitChar c = true := by
  obtain ⟨c, rest, hcr⟩ := List.exists_cons_of_ne_nil (natDigits_ne_nil n)
  refine ⟨c, by rw [hcr]; rfl, ?_⟩
  exact natDigits_all_digits n c (by rw [hcr]; exact List.mem_cons_self c rest)

/-- Python `int(str(n)) = n` for naturals: our `pyInt` inverts
`natDigits`. -/
lemma pyInt_natDigits (n : ℕ) : pyInt (natDigits n) = some ((n : ℕ) : ℤ) := by
  unfold pyInt
  rw [pyStrip_no_space (natDigits n) (natDigits_no_space n)]
  obtain ⟨c, hc, hcd⟩ := natDigits_head_digit n
  rw [if_neg, if_neg]
  · rw [if_pos]
    · rw [digitsToNat_natDigits]
    · rw [Bool.and_eq_true]
      constructor
      · simpa using natDigits_ne_nil n
      · rw [List.all_eq_true]
        intro x hx
        exact natDigits_all_digits n x hx
  · rw [hc]
    intro hEq
    rw [Option.some_inj] at hEq
    rw [hEq] at hcd
    exact absurd hcd (by decide)
  · rw [hc]
    intro hEq
    rw [Option.some_inj] at hEq
    rw [hEq] at hcd
    exact absurd hcd (by decide)

/-- The decimal rendering of `n` has `log₁₀ n + 1` digits. -/
lemma natDigits_length (n : ℕ) :
    (natDigits n).length = Nat.log 10 n + 1 := by
  induction n using Nat.strong_induction_on with
  | _ n ih =>
      rw [natDigits]
      split
      · rename_i h
        rw [List.length_singleton, Nat.log_eq_zero_iff.mpr (Or.inl h)]
      · rename_i h
        rw [List.length_append, List.length_singleton,
          ih (n / 10) (Nat.div_lt_self (by omega) (by omega)),
          Nat.log_div_base]
        have hpos : 0 < Nat.log 10 n := Nat.log_pos (by omega) (by omega)
        omega

/-- `n` is below `10 ^ (number of digits of n)`. -/
lemma lt_pow_natDigits_length (n : ℕ) : n < 10 ^ (natDigits n).length := by
  rw [natDigits_length]
  exact Nat.lt_pow_succ_log_self (by omega) n

lemma natDigits_length_mono {m n : ℕ} (h : m ≤ n) :
    (natDigits m).length ≤ (natDigits n).length := by
  rw [natDigits_length, natDigits_length]
  exact Nat.add_le_add_right (Nat.log_mono_right h) 1

lemma natDigits_length_le_of_lt_pow {n k : ℕ} (hn : n ≠ 0)
    (h : n < 10 ^ k) : (natDigits n).length ≤ k := by
  rw [natDigits_length]
  exact Nat.log_lt_of_lt_pow hn h

/-- Length of a candidate frame of the legacy builder. -/
lemma mkFull_length (dataStr : List Char) (t : ℕ) :
    (LegacyProtocol.mkFull dataStr t).length
      = dataStr.length + 3 + (natDigits t).length := by
  unfold LegacyProtocol.mkFull
  simp [List.length_append]
  omega

/-- The legacy builder's length iteration reaches a fixed point within
its five builds: the returned frame's declared length field equals its
actual length. -/
lemma fixLen_fixed_point (dataStr : List Char) (hL : 1 ≤ dataStr.length) :
    ∃ t, LegacyProtocol.fixLen dataStr 4 (dataStr.length + 3)
        = LegacyProtocol.mkFull dataStr t ∧
      (LegacyProtocol.mkFull dataStr t).length = t := by
  set L := dataStr.length with hLdef
  set t0 := L + 3 with ht0
  set d0 := (natDigits t0).length with hd0
  have hd0pos : 1 ≤ d0 := by
    rw [hd0, natDigits_length]; omega
  have hstep0 : (LegacyProtocol.mkFull dataStr t0).length = t0 + d0 := by
    rw [mkFull_length]
    try omega
  have ht0lt : t0 < 10 ^ d0 := lt_pow_natDigits_length t0
  have hd0small : d0 < 10 ^ d0 := Nat.lt_pow_self (by omega) d0
  set t1 := t0 + d0 with ht1
  have hstep1 : (LegacyProtocol.mkFull dataStr t1).length
      = t0 + (natDigits t1).length := by
    rw [mkFull_length]
    try omega
  have hd1ge : d0 ≤ (natDigits t1).length :=
    natDigits_length_mono (by omega)
  have hd1le : (natDigits t1).length ≤ d0 + 1 := by
    apply natDigits_length_le_of_lt_pow (by omega)
    calc t1 = t0 + d0 := ht1
    _ < 10 ^ d0 + 10 ^ d0 := by omega
    _ ≤ 10 ^ (d0 + 1) := by
        rw [pow_succ]
        omega
  rw [show LegacyProtocol.fixLen dataStr 4 t0
      = LegacyProtocol.fixLen dataStr 3 t1 by
    rw [LegacyProtocol.fixLen]
    rw [if_neg (by omega)]
    rw [hstep0]]
  by_cases hfix : (natDigits t1).length = d0
  · refine ⟨t1, ?_, ?_⟩
    · rw [LegacyProtocol.fixLen, if_pos (by omega)]
    · omega
  · have hd1 : (natDigits t1).length = d0 + 1 := by omega
    set t2 := t0 + d0 + 1 with ht2
    have hd2ge : d0 + 1 ≤ (natDigits t2).length := by
      rw [← hd1]
      exact natDigits_length_mono (by omega)
    have hd2le : (natDigits t2).length ≤ d0 + 1 := by
      apply natDigits_length_le_of_lt_pow (by omega)
      calc t2 = t0 + d0 + 1 := ht2
      _ ≤ 10 ^ d0 + d0 := by omega
      _ < 10 ^ d0 + 10 ^ d0 := by omega
      _ ≤ 10 ^ (d0 + 1) := by
          rw [pow_succ]
          omega
    rw [show LegacyProtocol.fixLen dataStr 3 t1
        = LegacyProtocol.fixLen dataStr 2 t2 by
      rw [LegacyProtocol.fixLen]
      rw [if_neg (by omega)]
      rw [show (LegacyProtocol.mkFull dataStr t1).length = t2 by omega]]
    refine ⟨t2, ?_, ?_⟩
    · rw [LegacyProtocol.fixLen, if_pos (by rw [mkFull_length]; omega)]
    · rw [mkFull_length]; omega

/-- `splitComma` never returns the empty list. -/
lemma splitComma_ne_nil (l : List Char) : splitComma l ≠ [] := by
  cases l with
  | nil => simp [splitComma]
  | cons c cs =>
      rw [splitComma]
      cases h : splitComma cs with
      | nil => simp
      | cons p ps =>
          split
          · simp
          · split <;> simp

/-- Splitting a comma-free chunk followed by a comma peels the chunk. -/
lemma splitComma_append_cons (a : List Char) (ha : ',' ∉ a)
    (rest : List Char) :
    splitComma (a ++ ',' :: rest) = a :: splitComma rest := by
  induction a with
  | nil =>
      rw [List.nil_append, splitComma]
      cases h : splitComma rest with
      | nil => exact absurd h (splitComma_ne_nil rest)
      | cons p ps => simp
  | cons c a' ih =>
      have hc : c ≠ ',' := fun hEq => ha (hEq ▸ List.mem_cons_self c a')
      have ha' : ',' ∉ a' := fun hmem => ha (List.mem_cons_of_mem c hmem)
      rw [List.cons_append, splitComma, ih ha']
      simp [hc]

/-- Splitting a comma-free string yields a single part. -/
lemma splitComma_no_comma (a : List Char) (ha : ',' ∉ a) :
    splitComma a = [a] := by
  induction a with
  | nil => rfl
  | cons c a' ih =>
      have hc : c ≠ ',' := fun hEq => ha (hEq ▸ List.mem_cons_self c a')
      have ha' : ',' ∉ a' := fun hmem => ha (List.mem_cons_of_mem c hmem)
      rw [splitComma, ih ha']
      simp [hc]

/-- `split(',')` inverts `','.join` on nonempty lists of comma-free
parts. -/
lemma splitComma_joinComma (l : List (List Char)) (hl : l ≠ [])
    (h : ∀ a ∈ l, ',' ∉ a) : splitComma (joinComma l) = l := by
  induction l with
  | nil => exact absurd rfl hl
  | cons x xs ih =>
      cases xs with
      | nil =>
          rw [joinComma]
          exact splitComma_no_comma x (h x (List.mem_cons_self x []))
      | cons y ys =>
          rw [show joinComma (x :: y :: ys) = x ++ ',' :: joinComma (y :: ys)
            from rfl]
          rw [splitComma_append_cons x (h x (List.mem_cons_self x (y :: ys)))]
          rw [ih (by simp) (fun a ha => h a (List.mem_cons_of_mem x ha))]


/-- The drain loop empties the queue completely. -/
lemma drainQueue_eq_nil (q : List K230Response) : drainQueue q = [] := by
  induction q with
  | nil => rfl
  | cons _ _ ih => simpa [drainQueue] using ih

/-- `_send_pulses` emits exactly `count` pulses. -/
lemma sendPulses_length (m : MotorConfig) (count : ℕ) :
    (sendPulses m count).length = count := by
  unfold sendPulses
  split
  · simp [*]
  · simp

/-- Number of success callbacks in an output list. -/
def countSuccess (cbs : List Callback) : ℕ :=
  cbs.countP (fun c => match c with | .success _ _ => true | _ => false)

/-- An active window whose age is below `window_duration` is not expired. -/
lemma isWindowExpired_eq_false {cfg : FaceConfig} {now : ℚ}
    {w : RecognitionWindow} (ha : w.active = true)
    (hlt : now - w.start_time < cfg.window_duration) :
    isWindowExpired cfg now w = false := by
  simp [isWindowExpired, ha, decide_eq_false_iff_not, not_le, hlt]

/-- `handleExpiry` is the identity on a non-expired window. -/
lemma handleExpiry_not_expired {cfg : FaceConfig} {now : ℚ}
    {w : RecognitionWindow} (h : isWindowExpired cfg now w = false) :
    handleExpiry cfg now w = (w, []) := by
  simp [handleExpiry, h]

/-- The window produced by `handleExpiry` is always active. -/
lemma handleExpiry_active (cfg : FaceConfig) (now : ℚ)
    (w : RecognitionWindow) : (handleExpiry cfg now w).1.active = true := by
  unfold handleExpiry
  split
  · simp [startWindow, resetWindow]
  · rename_i hexp
    by_cases ha : w.active
    · simpa using ha
    · simp [isWindowExpired, ha] at hexp

/-- A recognition delivered to an active, already-succeeded window
within its duration emits no callback and only updates
`last_recognition`. -/
lemma onRecognition_succeeded_step (cfg : FaceConfig) (now : ℚ)
    (r : FaceRecognition) (w : RecognitionWindow) (ha : w.active = true)
    (hrep : w.success_reported = true)
    (hlt : now - w.start_time < cfg.window_duration) :
    onRecognitionResult cfg now r w
      = (if isSuccess cfg r then { w with last_recognition := some r }
         else { w with last_recognition := some r,
                       failure_count := w.failure_count + 1 }, []) := by
  unfold onRecognitionResult
  rw [handleExpiry_not_expired (isWindowExpired_eq_false ha hlt)]
  cases hS : isSuccess cfg r <;> simp [hS, hrep]

/-- Recognitions delivered to an active, already-succeeded window within
its duration emit no callbacks at all. -/
lemma faceRun_succeeded (cfg : FaceConfig) (t0 : ℚ)
    (trs : List (ℚ × FaceRecognition)) :
    ∀ w : RecognitionWindow, w.active = true → w.success_reported = true →
    w.start_time = t0 →
    (∀ p ∈ trs, t0 ≤ p.1 ∧ p.1 - t0 < cfg.window_duration) →
    (faceRun cfg w (trs.map (fun p => FaceEvent.recognize p.1 p.2))).2 = [] := by
  induction trs with
  | nil => intro w _ _ _ _; rfl
  | cons p rest ih =>
      intro w ha hrep hst hq
      have hp := hq p (List.mem_cons_self p rest)
      simp only [List.map_cons, faceRun, faceStep]
      rw [onRecognition_succeeded_step cfg p.1 p.2 w ha hrep
        (by rw [hst]; exact hp.2)]
      cases hS : isSuccess cfg p.2 <;>
        simp only [hS, Bool.false_eq_true, if_false, if_true,
          List.nil_append] <;>
        exact ih _ ha hrep hst (fun q hqmem => hq q (List.mem_cons_of_mem p hqmem))

/-- A failing recognition delivered to an active, not-yet-succeeded
window within its duration emits no callback and increments the failure
count. -/
lemma faceRun_failing (cfg : FaceConfig) (t0 : ℚ)
    (trs : List (ℚ × FaceRecognition)) :
    ∀ w : RecognitionWindow, w.active = true → w.success_reported = false →
    w.start_time = t0 →
    (∀ p ∈ trs, t0 ≤ p.1 ∧ p.1 - t0 < cfg.window_duration ∧
      isSuccess cfg p.2 = false) →
    faceRun cfg w (trs.map (fun p => FaceEvent.recognize p.1 p.2))
      = ({ w with
           failure_count := w.failure_count + trs.length
           last_recognition :=
             (trs.map (fun p => some p.2)).getLastD w.last_recognition },
         []) := by
  induction trs with
  | nil =>
      intro w _ _ _ _
      simp [faceRun]
  | cons p rest ih =>
      intro w ha hrep hst hq
      have hp := hq p (List.mem_cons_self p rest)
      simp only [List.map_cons, faceRun, faceStep]
      rw [show onRecognitionResult cfg p.1 p.2 w
          = ({ w with
               last_recognition := some p.2
               failure_count := w.failure_count + 1 }, []) by
        unfold onRecognitionResult
        rw [handleExpiry_not_expired
          (isWindowExpired_eq_false ha (by rw [hst]; exact hp.2.1))]
        simp [hp.2.2]]
      rw [ih { w with
               last_recognition := some p.2
               failure_count := w.failure_count + 1 }
        ha hrep hst (fun q hqmem => hq q (List.mem_cons_of_mem p hqmem))]
      simp only [List.map_cons, List.getLastD_cons, List.nil_append,
        List.length_cons, Prod.mk.injEq, and_true]
      congr 1
      omega

/-- `faceRun` over an appended event list. -/
lemma faceRun_append (cfg : FaceConfig) (l₁ l₂ : List FaceEvent) :
    ∀ w, faceRun cfg w (l₁ ++ l₂)
      = ((faceRun cfg (faceRun cfg w l₁).1 l₂).1,
         (faceRun cfg w l₁).2 ++ (faceRun cfg (faceRun cfg w l₁).1 l₂).2) := by
  induction l₁ with
  | nil => intro w; simp [faceRun]
  | cons e es ih =>
      intro w
      simp only [List.cons_append, faceRun, List.append_eq]
      rw [ih]
      simp [List.append_assoc]

/-- The reset-value invariant of the window (data-model invariant from
the spec): an inactive window has all counters at their reset values. -/
def WindowInv (w : RecognitionWindow) : Prop :=
  w.active = false →
    w.success_reported = false ∧ w.failure_count = 0 ∧ w.last_recognition = none

/-- Stripping a `$…#` frame is the identity (the sentinels are not
whitespace, and `strip` only looks at the ends). -/
lemma pyStrip_dollar_hash (mid : List Char) :
    pyStrip ('$' :: mid ++ ['#']) = '$' :: mid ++ ['#'] := by
  have hc : '$' :: mid ++ ['#'] = '$' :: (mid ++ ['#']) := by simp
  rw [hc]
  unfold pyStrip
  rw [List.dropWhile_cons, show isPySpace '$' = false by decide]
  simp only [Bool.false_eq_true, if_false]
  have h2 : ('$' :: (mid ++ ['#'])).reverse = '#' :: (mid.reverse ++ ['$']) := by
    simp
  rw [h2, List.dropWhile_cons, show isPySpace '#' = false by decide]
  simp only [Bool.false_eq_true, if_false]
  rw [← h2, List.reverse_reverse]

/-- Stripping a `$…#` frame followed by the builder's newline yields the
bare frame. -/
lemma pyStrip_dollar_hash_newline (mid : List Char) :
    pyStrip (('$' :: mid ++ ['#']) ++ ['\n']) = '$' :: mid ++ ['#'] := by
  rw [show ('$' :: mid ++ ['#']) ++ ['\n'] = '$' :: (mid ++ ['#'] ++ ['\n'])
    by simp]
  unfold pyStrip
  rw [List.dropWhile_cons, show isPySpace '$' = false by decide]
  simp only [Bool.false_eq_true, if_false]
  have h2 : ('$' :: (mid ++ ['#'] ++ ['\n'])).reverse
      = '\n' :: ('#' :: (mid.reverse ++ ['$'])) := by
    simp
  rw [h2, List.dropWhile_cons, show isPySpace '\n' = true by decide]
  simp only [if_true]
  rw [List.dropWhile_cons, show isPySpace '#' = false by decide]
  simp only [Bool.false_eq_true, if_false]
  rw [show ('#' : Char) :: (mid.reverse ++ ['$'])
      = ('$' :: mid ++ ['#']).reverse by simp, List.reverse_reverse]

/-- The end sentinel of a `$…#` frame. -/
lemma getLast_dollar_hash (mid : List Char) :
    ('$' :: mid ++ ['#']).getLast? = some '#' := by
  rw [show '$' :: mid ++ ['#'] = ('$' :: mid) ++ ['#'] by simp]
  exact List.getLast?_concat _

/-- The content slice `data[1:-1]` of a `$…#` frame. -/
lemma content_dollar_hash (mid : List Char) :
    (('$' :: mid ++ ['#']).drop 1).dropLast = mid := by
  simp

/-! ## Claims -/

/-- `parse_message` rejects every `$CMD,…#` frame: the first field is
`CMD`, which is neither `RSP` nor numeric. -/
lemma parse_message_cmd_none (x : List Char) :
    K230Protocol.parse_message ('$' :: ("CMD,".toList ++ (x ++ ['#'])))
      = none := by
  have hshape : '$' :: ("CMD,".toList ++ (x ++ ['#']))
      = '$' :: ("CMD,".toList ++ x) ++ ['#'] := by simp
  rw [hshape]
  unfold K230Protocol.parse_message
  rw [pyStrip_dollar_hash]
  rw [if_pos (by
    rw [getLast_dollar_hash]
    simp)]
  dsimp only
  rw [content_dollar_hash]
  rw [show "CMD,".toList ++ x = ("CMD".toList) ++ ',' :: x by simp]
  rw [splitComma_append_cons "CMD".toList (by decide) x]
  rw [if_neg (by
    simp only [List.length_cons]
    have := splitComma_ne_nil x
    have : 1 ≤ (splitComma x).length := by
      cases h : splitComma x with
      | nil => exact absurd h this
      | cons p ps => simp
    omega)]
  dsimp only [List.getD_cons_zero]
  rw [if_neg (by decide)]
  rw [if_neg (by decide)]

/-- Claim C2 counterexample: `parse_message(build_command("PING"))` is
Malformed (`None`) — `parse_message` recovers no fields at all from a
`$CMD,…#` frame, so the round trip fails for the keyword dialect. -/
theorem c2_counterexample :
    K230Protocol.parse_message (K230Protocol.build_command "PING".toList [])
      = none := by decide

/-- Claim C2 (amended): `parse_message` classifies no `$CMD,…#` frame
(it parses only `RSP` responses and numeric data packets, so
`parse_message(build_command(...)) = Malformed` for every command); the
round trip holds for the legacy dialect: for comma-free arguments and a
function id outside the inbound data ids `{6, 8, 10, 11, 99}`,
`parse_data(build_packet(func_id, args))` recovers exactly the same
`func_id` and the same argument list (the declared length field produced
by the fixed-point iteration always matches the actual frame length). -/
theorem c2_round_trip :
    (∀ cmd args, K230Protocol.parse_message (K230Protocol.build_command cmd args)
      = none) ∧
    (∀ (funcId : ℕ) (args : List (List Char)),
      funcId ∉ ([6, 8, 10, 11, 99] : List ℕ) →
      (∀ a ∈ args, ',' ∉ a) →
      LegacyProtocol.parse_data (LegacyProtocol.build_packet funcId args)
        = some ((funcId : ℤ), .raw_params args)) := by
  constructor
  · intro cmd args
    unfold K230Protocol.build_command
    by_cases hargs : args.isEmpty
    · rw [if_pos hargs]
      rw [show '$' :: "CMD,".toList ++ cmd ++ ['#']
          = '$' :: ("CMD,".toList ++ (cmd ++ ['#'])) by simp]
      exact parse_message_cmd_none cmd
    · rw [if_neg hargs]
      rw [show '$' :: "CMD,".toList ++ cmd ++ ',' :: joinComma args ++ ['#']
          = '$' :: ("CMD,".toList ++ ((cmd ++ ',' :: joinComma args) ++ ['#']))
        by simp]
      exact parse_message_cmd_none (cmd ++ ',' :: joinComma args)
  · intro funcId args hfid hargs
    simp only [List.mem_cons, List.not_mem_nil, or_false, not_or] at hfid
    obtain ⟨h6, h8, h10, h11, h99⟩ := hfid
    unfold LegacyProtocol.build_packet
    set dataStr := joinComma (natDigits funcId :: args) with hds
    have hLpos : 1 ≤ dataStr.length := by
      rw [hds]
      cases args with
      | nil =>
          rw [joinComma]
          have := natDigits_ne_nil funcId
          cases h : natDigits funcId with
          | nil => exact absurd h this
          | cons c cs => simp [h]
      | cons y ys =>
          rw [show joinComma (natDigits funcId :: y :: ys)
              = natDigits funcId ++ ',' :: joinComma (y :: ys) from rfl]
          simp only [List.length_append, List.length_cons]
          omega

    obtain ⟨t, hfix, hlen⟩ := fixLen_fixed_point dataStr hLpos
    dsimp only
    rw [hfix]
    have hshape : LegacyProtocol.mkFull dataStr t
        = '$' :: (natDigits t ++ ',' :: dataStr) ++ ['#'] := by
      unfold LegacyProtocol.mkFull
      simp
    have hlen' : ('$' :: (natDigits t ++ ',' :: dataStr) ++ ['#']).length
        = t := by
      rw [← hshape]
      exact hlen
    rw [hshape]
    unfold LegacyProtocol.parse_data
    rw [pyStrip_dollar_hash_newline]
    rw [if_pos (by
      rw [getLast_dollar_hash]
      simp)]
    dsimp only
    rw [content_dollar_hash]
    rw [splitComma_append_cons (natDigits t) (natDigits_no_comma t)]
    rw [hds, splitComma_joinComma (natDigits funcId :: args) (by simp)
      (by
        intro a ha
        rcases List.mem_cons.mp ha with h | h
        · rw [h]; exact natDigits_no_comma funcId
        · exact hargs a h)]
    rw [if_neg (by simp)]
    dsimp only [List.getD_cons_zero, List.getD_cons_succ]
    rw [pyInt_natDigits t, pyInt_natDigits funcId]
    dsimp only
    rw [if_neg (by
      rw [hlen']
      simp)]
    rw [show (natDigits t :: natDigits funcId :: args).drop 2 = args from rfl]
    unfold LegacyProtocol.parse_by_func_id
    rw [if_neg (by
      unfold LegacyProtocol.DATA_FACE_DETECT
      exact_mod_cast h6)]
    rw [if_neg (by
      unfold LegacyProtocol.DATA_FACE_RECOGNITION
      exact_mod_cast h8)]
    rw [if_neg (by
      unfold LegacyProtocol.DATA_STATUS
      exact_mod_cast h10)]
    rw [if_neg (by
      unfold LegacyProtocol.DATA_REGISTER_RESULT
      exact_mod_cast h11)]
    rw [if_neg (by
      unfold LegacyProtocol.DATA_ERROR
      exact_mod_cast h99)]
    rfl

/-- Witness for C2 (amended): the register command with two comma-free
arguments round-trips through the legacy codec. -/
theorem c2_round_trip_witness :
    (2 : ℕ) ∉ ([6, 8, 10, 11, 99] : List ℕ) ∧
    (∀ a ∈ [("17".toList : List Char), "alice".toList], ',' ∉ a) ∧
    LegacyProtocol.parse_data
        (LegacyProtocol.build_packet 2 ["17".toList, "alice".toList])
      = some ((2 : ℤ), .raw_params ["17".toList, "alice".toList]) :=
  ⟨by decide, by decide,
    c2_round_trip.2 2 ["17".toList, "alice".toList] (by decide) (by decide)⟩

/-- Claim C7: both parsers are total functions into `Option` and return
the Malformed result (`none`) — never a partially populated object — on
each malformation mode: an input whose stripped text is missing the end
sentinel `#`; a detection (`06`) or recognition (`08`) packet with a
non-numeric coordinate or score field (a field `int(...)` rejects); and
a legacy frame whose declared length field differs from the actual
length of the stripped frame. -/
theorem c7_malformed_input_rejected :
    (∀ s : List Char, (pyStrip s).getLast? ≠ some '#' →
      K230Protocol.parse_message s = none ∧
      LegacyProtocol.parse_data s = none) ∧
    (∀ parts : List (List Char), parts.getD 1 [] = "06".toList →
      (pyInt (parts.getD 2 []) = none ∨ pyInt (parts.getD 3 []) = none ∨
        pyInt (parts.getD 4 []) = none ∨ pyInt (parts.getD 5 []) = none) →
      K230Protocol.parse_data_packet parts = none) ∧
    (∀ parts : List (List Char), parts.getD 1 [] = "08".toList →
      (pyInt (parts.getD 2 []) = none ∨ pyInt (parts.getD 3 []) = none ∨
        pyInt (parts.getD 4 []) = none ∨ pyInt (parts.getD 5 []) = none ∨
        pyInt (parts.getD 7 []) = none) →
      K230Protocol.parse_data_packet parts = none) ∧
    (∀ (s : List Char) (n : ℤ),
      pyInt ((splitComma ((pyStrip s).drop 1).dropLast).getD 0 []) = some n →
      n ≠ ((pyStrip s).length : ℤ) →
      LegacyProtocol.parse_data s = none) ∧
    (∀ params : List (List Char),
      (pyInt (params.getD 0 []) = none ∨ pyInt (params.getD 1 []) = none ∨
        pyInt (params.getD 2 []) = none ∨ pyInt (params.getD 3 []) = none) →
      LegacyProtocol.parse_face_detect params = none) := by
  refine ⟨?_, ?_, ?_, ?_, ?_⟩
  · intro s hend
    constructor
    · unfold K230Protocol.parse_message
      rw [if_neg]
      simp [hend]
    · unfold LegacyProtocol.parse_data
      rw [if_neg]
      simp [hend]
  · intro parts h06 hbad
    unfold K230Protocol.parse_data_packet
    dsimp only
    rw [h06]
    rw [if_pos (show "06".toList = K230Protocol.DATA_TYPE_FACE_DETECTION
      from rfl)]
    split
    · rcases hbad with h | h | h | h <;> rw [h] <;>
        · cases pyInt (parts.getD 2 []) <;> cases pyInt (parts.getD 3 []) <;>
            cases pyInt (parts.getD 4 []) <;> cases pyInt (parts.getD 5 []) <;>
            rfl
    · rfl
  · intro parts h08 hbad
    unfold K230Protocol.parse_data_packet
    dsimp only
    rw [h08]
    rw [if_neg (show ¬"08".toList = K230Protocol.DATA_TYPE_FACE_DETECTION
      from by decide)]
    rw [if_pos (show "08".toList = K230Protocol.DATA_TYPE_FACE_RECOGNITION
      from rfl)]
    split
    · rcases hbad with h | h | h | h | h <;> rw [h] <;>
        · cases pyInt (parts.getD 2 []) <;> cases pyInt (parts.getD 3 []) <;>
            cases pyInt (parts.getD 4 []) <;> cases pyInt (parts.getD 5 []) <;>
            cases pyInt (parts.getD 7 []) <;>
            rfl
    · rfl
  · intro s n hn hne
    unfold LegacyProtocol.parse_data
    dsimp only
    split
    · split
      · rfl
      · rw [hn]
        cases pyInt ((splitComma ((pyStrip s).drop 1).dropLast).getD 1 []) with
        | none => rfl
        | some fid =>
            dsimp only
            rw [if_pos hne]
    · rfl
  · intro params hbad
    unfold LegacyProtocol.parse_face_detect
    split
    · rfl
    · rcases hbad with h | h | h | h <;> rw [h] <;>
        · cases pyInt (params.getD 0 []) <;> cases pyInt (params.getD 1 []) <;>
            cases pyInt (params.getD 2 []) <;> cases pyInt (params.getD 3 []) <;>
            rfl

/-- Witness for C7: a frame missing its `#`, a detection packet with a
non-numeric coordinate, and a legacy frame with a wrong length field. -/
theorem c7_malformed_input_rejected_witness :
    ((pyStrip "$RSP,10,OK".toList).getLast? ≠ some '#' ∧
      K230Protocol.parse_message "$RSP,10,OK".toList = none) ∧
    (["16".toList, "06".toList, "ab".toList, "20".toList, "30".toList,
        "40".toList].getD 1 [] = "06".toList ∧
      K230Protocol.parse_data_packet
        ["16".toList, "06".toList, "ab".toList, "20".toList, "30".toList,
          "40".toList] = none) ∧
    (pyInt ((splitComma ((pyStrip "$99,1,2#".toList).drop 1).dropLast).getD
        0 []) = some 99 ∧
      LegacyProtocol.parse_data "$99,1,2#".toList = none) :=
  ⟨⟨by decide, (c7_malformed_input_rejected.1 "$RSP,10,OK".toList
      (by decide)).1⟩,
   ⟨by decide, c7_malformed_input_rejected.2.1 _ (by decide)
      (Or.inl (by decide))⟩,
   ⟨by decide, c7_malformed_input_rejected.2.2.2.1 "$99,1,2#".toList 99
      (by decide) (by decide)⟩⟩

/-- Claim C4: for every pair of consecutive `send_command` calls, the
hand-off queue is completely drained before the second command's bytes
are written (first component `= []`), and the second call's delivered
response is the head of the responses arriving during its own wait —
independent of the first call's pending queue, its arrivals, and any
late response enqueued between the calls, so a stale response is never
returned as the second send's response. -/
theorem c4_correlator_drains_stale
    (pending₁ arrivals₁ late arrivals₂ : List K230Response) :
    twoSends pending₁ arrivals₁ late arrivals₂ = ([], arrivals₂.head?) := by
  unfold twoSends sendCommand
  simp only [drainQueue_eq_nil, List.nil_append]
  cases arrivals₁ <;> cases arrivals₂ <;> simp [drainQueue_eq_nil]

/-- Claim C5 counterexample: with `pulses_per_rev = 2`, `rotate(315)`
emits `int(1.75) = 1` pulse, while `round(315/360 × 2) = round(1.75) = 2`
— the pulse count is the truncation, not the rounding, of
`angle/360 × pulses_per_rev`. -/
theorem c5_counterexample :
    ((rotate ⟨2, 1/2000, 1/500⟩ 315 true).1.length : ℤ)
        ≠ round ((315 : ℚ) / 360 * (2 : ℚ)) ∧
    (rotate ⟨2, 1/2000, 1/500⟩ 315 true).1.length = 1 ∧
    round ((315 : ℚ) / 360 * (2 : ℚ)) = 2 := by
  refine ⟨?_, ?_, ?_⟩
  · rw [rotate]; norm_num [rotatePulseCount, sendPulses_length, round_eq]
  · rw [rotate]; norm_num [rotatePulseCount, sendPulses_length]
  · norm_num [round_eq]

/-- Claim C5 (amended): `rotate` is a no-op (no pulses, direction pin
untouched) when `angle ≤ 0`, and otherwise emits
`int(angle/360 × pulses_per_rev)` pulses — the value truncated toward
zero, not rounded to nearest; in particular `rotate(90)` with
`pulses_per_rev = 800` emits exactly 200 pulses. -/
theorem c5_pulse_count (m : MotorConfig) (angle : ℚ) (cw : Bool) :
    (angle ≤ 0 → rotate m angle cw = ([], none)) ∧
    (0 < angle →
      (rotate m angle cw).1.length
          = (⌊angle / 360 * (m.pulses_per_rev : ℚ)⌋).toNat ∧
      (rotate m angle cw).2 = some cw) ∧
    (m.pulses_per_rev = 800 → (rotate m 90 cw).1.length = 200) := by
  refine ⟨fun hle => by simp [rotate, hle], fun hpos => ?_, fun h800 => ?_⟩
  · rw [rotate, if_neg (by linarith)]
    exact ⟨by simp [sendPulses_length, rotatePulseCount], rfl⟩
  · rw [rotate, if_neg (by norm_num)]
    simp only [sendPulses_length, rotatePulseCount, h800]
    norm_num
    decide

/-- Witness for C5 (amended) at `angle = 90`, `pulses_per_rev = 800`. -/
theorem c5_pulse_count_witness :
    (0 : ℚ) < 90 ∧ (rotate ⟨800, 1/2000, 1/500⟩ 90 true).1.length = 200 :=
  ⟨by norm_num, (c5_pulse_count ⟨800, 1/2000, 1/500⟩ 90 true).2.2 rfl⟩

/-- Claim C10: every pulse's period — the sum of its high half and low
half — is the clamped delay, and lies within `[min_delay, max_delay]`:
the per-pulse frequency is clamped into `[min_freq, max_freq]` before
the delay is derived. -/
theorem c10_period_within_bounds (m : MotorConfig) (count i : ℕ)
    (h1 : 0 < m.min_delay) (h2 : m.min_delay ≤ m.max_delay) (hi : i < count) :
    pulseHigh m count i + pulseLow m count i = pulseDelay m count i ∧
    m.min_delay ≤ pulseDelay m count i ∧
    pulseDelay m count i ≤ m.max_delay := by
  have hmax : 0 < m.max_delay := lt_of_lt_of_le h1 h2
  have hminF : minFreq m = 1 / m.max_delay := by simp [minFreq, hmax]
  have hmaxF : maxFreq m = 1 / m.min_delay := by simp [maxFreq, h1]
  have hminFpos : 0 < minFreq m := by
    rw [hminF]; exact one_div_pos.mpr hmax
  have hFle : minFreq m ≤ maxFreq m := by
    rw [hminF, hmaxF]; exact one_div_le_one_div_of_le h1 h2
  have hlo : minFreq m ≤ pulseFreq m count i := le_max_left _ _
  have hhi : pulseFreq m count i ≤ maxFreq m :=
    max_le hFle (min_le_left _ _)
  have hfpos : 0 < pulseFreq m count i := lt_of_lt_of_le hminFpos hlo
  refine ⟨by rw [pulseHigh, pulseLow]; ring, ?_, ?_⟩
  · have := one_div_le_one_div_of_le hfpos hhi
    rwa [hmaxF, one_div_one_div] at this
  · have := one_div_le_one_div_of_le hminFpos hlo
    rwa [hminF, one_div_one_div] at this

/-- Witness for C10 at a concrete motor and pulse. -/
theorem c10_period_within_bounds_witness :
    (0 : ℚ) < 1 ∧ (1 : ℚ) ≤ 2 ∧ 0 < 10 ∧
    (pulseHigh ⟨800, 1, 2⟩ 10 0 + pulseLow ⟨800, 1, 2⟩ 10 0
        = pulseDelay ⟨800, 1, 2⟩ 10 0 ∧
      (1 : ℚ) ≤ pulseDelay ⟨800, 1, 2⟩ 10 0 ∧
      pulseDelay ⟨800, 1, 2⟩ 10 0 ≤ 2) :=
  ⟨by norm_num, by norm_num, by norm_num,
    c10_period_within_bounds ⟨800, 1, 2⟩ 10 0 (by norm_num) (by norm_num)
      (by norm_num)⟩

/-- `int(count * 0.2)` is exact fifth-truncation: `count / 5`. -/
lemma accSteps_eq (count : ℕ) : accSteps count = count / 5 := by
  unfold accSteps
  rw [show (0.2 : ℚ) = 1 / 5 by norm_num, mul_one_div]
  rw [show (5 : ℚ) = ((5 : ℕ) : ℚ) by norm_num]
  rw [Nat.floor_div_nat, Nat.floor_natCast]

/-- The clamp `max a (min b ·)` is monotone. -/
lemma clamp_mono {a b x y : ℚ} (h : x ≤ y) :
    max a (min b x) ≤ max a (min b y) :=
  max_le_max le_rfl (min_le_min le_rfl h)

/-- Claim C6: with `0 < min_delay ≤ max_delay`, the pulse train's entry
`i` is the period `pulseDelay i`; in a non-degenerate train (`count ≥ 5`)
the first and last pulses use period `1/min_freq = max_delay` and every
cruise pulse uses period `1/max_freq = min_delay`; the per-pulse
frequency is non-decreasing across the acceleration phase and
non-increasing across the deceleration phase; and a degenerate train
(`count < 5`, so `acc_steps = 0`) runs entirely at `max_freq`. -/
theorem c6_trapezoidal_profile (m : MotorConfig) (count : ℕ)
    (h1 : 0 < m.min_delay) (h2 : m.min_delay ≤ m.max_delay) :
    (∀ i, i < count →
      (sendPulses m count).get? i = some (pulseDelay m count i)) ∧
    (5 ≤ count →
      pulseDelay m count 0 = m.max_delay ∧
      pulseDelay m count (count - 1) = m.max_delay) ∧
    (∀ i, accSteps count ≤ i → i < count - accSteps count →
      pulseDelay m count i = m.min_delay) ∧
    (∀ i j, i ≤ j → j < accSteps count →
      pulseFreq m count i ≤ pulseFreq m count j) ∧
    (∀ i j, count - accSteps count ≤ i → i ≤ j → j < count →
      pulseFreq m count j ≤ pulseFreq m count i) ∧
    (count < 5 → ∀ i, i < count → pulseFreq m count i = maxFreq m) := by
  have hmax : 0 < m.max_delay := lt_of_lt_of_le h1 h2
  have hminF : minFreq m = 1 / m.max_delay := by simp [minFreq, hmax]
  have hmaxF : maxFreq m = 1 / m.min_delay := by simp [maxFreq, h1]
  have hFle : minFreq m ≤ maxFreq m := by
    rw [hminF, hmaxF]; exact one_div_le_one_div_of_le h1 h2
  have hdelta : (0 : ℚ) ≤ maxFreq m - minFreq m := sub_nonneg.mpr hFle
  have hacc := accSteps_eq count
  have hfreq_of_raw_min : ∀ i, rawFreq m count i = minFreq m →
      pulseDelay m count i = m.max_delay := by
    intro i hraw
    unfold pulseDelay pulseFreq
    rw [hraw, min_eq_right hFle, max_self, hminF, one_div_one_div]
  have hfreq_of_raw_max : ∀ i, rawFreq m count i = maxFreq m →
      pulseFreq m count i = maxFreq m := by
    intro i hraw
    unfold pulseFreq
    rw [hraw, min_self, max_eq_right hFle]
  refine ⟨?_, ?_, ?_, ?_, ?_, ?_⟩
  · -- pulse `i` of the emitted train has period `pulseDelay i`
    intro i hi
    unfold sendPulses
    rw [if_neg (by omega)]
    rw [List.get?_map, List.get?_range hi]
    rfl
  · -- first and last pulses are slow
    intro h5
    constructor
    · apply hfreq_of_raw_min
      simp only [rawFreq]
      rw [if_pos (by omega : 0 < accSteps count)]
      split
      · norm_num
      · rfl
    · apply hfreq_of_raw_min
      have hlt : accSteps count < count := by omega
      simp only [rawFreq]
      rw [if_neg (by omega), if_pos (by omega)]
      split
      · rw [show count - (count - 1) - 1 = 0 from by omega]
        norm_num
      · rfl
  · -- cruise pulses are fast
    intro i hlo hhi
    have hraw : rawFreq m count i = maxFreq m := by
      simp only [rawFreq]
      rw [if_neg (by omega), if_neg (by omega)]
    unfold pulseDelay
    rw [hfreq_of_raw_max i hraw, hmaxF, one_div_one_div]
  · -- acceleration phase: frequency non-decreasing
    intro i j hij hj
    by_cases hacc2 : 1 < accSteps count
    · have hpos : (0 : ℚ) < ((accSteps count - 1 : ℕ) : ℚ) := by
        exact_mod_cast Nat.pos_of_ne_zero (by omega)
      have hbr : ∀ k, k < accSteps count → rawFreq m count k
          = minFreq m + (maxFreq m - minFreq m)
            * ((k : ℚ) / ((accSteps count - 1 : ℕ) : ℚ)) := by
        intro k hk
        simp only [rawFreq]
        rw [if_pos hk, if_pos hacc2]
      unfold pulseFreq
      rw [hbr i (by omega), hbr j hj]
      apply clamp_mono
      have hcast : (i : ℚ) ≤ (j : ℚ) := by exact_mod_cast hij
      gcongr
    · have hij' : i = j := by omega
      rw [hij']
  · -- deceleration phase: frequency non-increasing
    intro i j hi hij hj
    by_cases hacc2 : 1 < accSteps count
    · have hpos : (0 : ℚ) < ((accSteps count - 1 : ℕ) : ℚ) := by
        exact_mod_cast Nat.pos_of_ne_zero (by omega)
      have hbr : ∀ k, count - accSteps count ≤ k → k < count →
          rawFreq m count k
            = minFreq m + (maxFreq m - minFreq m)
              * (((count - k - 1 : ℕ) : ℚ) / ((accSteps count - 1 : ℕ) : ℚ)) := by
        intro k hk1 hk2
        simp only [rawFreq]
        rw [if_neg (by omega), if_pos (by omega), if_pos hacc2]
      unfold pulseFreq
      rw [hbr i hi (by omega), hbr j (by omega) hj]
      apply clamp_mono
      have hcast : ((count - j - 1 : ℕ) : ℚ) ≤ ((count - i - 1 : ℕ) : ℚ) := by
        exact_mod_cast (by omega : count - j - 1 ≤ count - i - 1)
      gcongr
    · have hij' : i = j := by omega
      rw [hij']
  · -- degenerate train runs entirely at max frequency
    intro h5 i hi
    have hz : accSteps count = 0 := by omega
    apply hfreq_of_raw_max
    simp only [rawFreq]
    rw [if_neg (by omega), if_neg (by omega)]

/-- Witness for C6 at a concrete motor and a 10-pulse train. -/
theorem c6_trapezoidal_profile_witness :
    (0 : ℚ) < 1 ∧ (1 : ℚ) ≤ 2 ∧
    ((∀ i, i < 10 →
        (sendPulses ⟨800, 1, 2⟩ 10).get? i = some (pulseDelay ⟨800, 1, 2⟩ 10 i)) ∧
      (5 ≤ 10 →
        pulseDelay ⟨800, 1, 2⟩ 10 0 = (2 : ℚ) ∧
        pulseDelay ⟨800, 1, 2⟩ 10 (10 - 1) = (2 : ℚ)) ∧
      (∀ i, accSteps 10 ≤ i → i < 10 - accSteps 10 →
        pulseDelay ⟨800, 1, 2⟩ 10 i = (1 : ℚ)) ∧
      (∀ i j, i ≤ j → j < accSteps 10 →
        pulseFreq ⟨800, 1, 2⟩ 10 i ≤ pulseFreq ⟨800, 1, 2⟩ 10 j) ∧
      (∀ i j, 10 - accSteps 10 ≤ i → i ≤ j → j < 10 →
        pulseFreq ⟨800, 1, 2⟩ 10 j ≤ pulseFreq ⟨800, 1, 2⟩ 10 i) ∧
      (10 < 5 → ∀ i, i < 10 → pulseFreq ⟨800, 1, 2⟩ 10 i = maxFreq ⟨800, 1, 2⟩)) :=
  ⟨by norm_num, by norm_num,
    c6_trapezoidal_profile ⟨800, 1, 2⟩ 10 (by norm_num) (by norm_num)⟩

lemma countSuccess_append (a b : List Callback) :
    countSuccess (a ++ b) = countSuccess a + countSuccess b :=
  List.countP_append _ a b

/-- The expiry-handling prefix never emits a success callback. -/
lemma handleExpiry_countSuccess (cfg : FaceConfig) (now : ℚ)
    (w : RecognitionWindow) : countSuccess (handleExpiry cfg now w).2 = 0 := by
  unfold handleExpiry
  split
  · split <;> rfl
  · rfl

/-- Claim C9: every operation of the state machine preserves the window
invariant (an inactive window has `success_reported = false`,
`failure_count = 0` and no `last_recognition`), no step emits more than
one success callback, a recognition step emits a success exactly when it
qualifies and the window being evaluated (after expiry handling) has not
yet reported success — in which case the resulting window records
`success_reported = true` — and detection and timeout steps never emit a
success. -/
theorem c9_window_invariant_preserved (cfg : FaceConfig)
    (w : RecognitionWindow) (e : FaceEvent) (hinv : WindowInv w) :
    WindowInv (faceStep cfg w e).1 ∧
    countSuccess (faceStep cfg w e).2 ≤ 1 ∧
    (∀ now r, e = FaceEvent.recognize now r →
      (countSuccess (faceStep cfg w e).2 = 1 ↔
        isSuccess cfg r = true ∧
        (handleExpiry cfg now w).1.success_reported = false) ∧
      (countSuccess (faceStep cfg w e).2 = 1 →
        (faceStep cfg w e).1.success_reported = true)) ∧
    (∀ now d, e = FaceEvent.detect now d → (faceStep cfg w e).2 = []) ∧
    (∀ now, e = FaceEvent.timeoutCheck now →
      countSuccess (faceStep cfg w e).2 = 0) := by
  cases e with
  | detect now d =>
      simp only [faceStep, onFaceDetected]
      by_cases ha : w.active
      · simp only [ha, Bool.not_true, Bool.false_eq_true, if_false]
        exact ⟨hinv, by simp [countSuccess],
          fun _ _ h => FaceEvent.noConfusion h, fun _ _ _ => by simp,
          fun _ h => FaceEvent.noConfusion h⟩
      · simp only [Bool.not_eq_true] at ha
        simp only [ha, Bool.not_false, if_true]
        refine ⟨fun habs => by simp [startWindow, resetWindow] at habs,
          by simp [countSuccess],
          fun _ _ h => FaceEvent.noConfusion h, fun _ _ _ => by simp,
          fun _ h => FaceEvent.noConfusion h⟩
  | recognize now r =>
      simp only [faceStep, onRecognitionResult]
      have hact := handleExpiry_active cfg now w
      have hcnt := handleExpiry_countSuccess cfg now w
      cases hS : isSuccess cfg r
      · simp only [Bool.false_eq_true, if_false]
        refine ⟨fun habs => by simp [hact] at habs, by simp [hcnt], ?_,
          fun _ _ h => FaceEvent.noConfusion h, fun _ h => FaceEvent.noConfusion h⟩
        intro now' r' he
        cases he
        constructor
        · simp [hcnt, hS]
        · intro h1
          simp [hcnt] at h1
      · cases hRep : (handleExpiry cfg now w).1.success_reported
        · simp only [hRep, Bool.not_false, if_true]
          refine ⟨fun habs => by simp [hact] at habs, ?_, ?_,
            fun _ _ h => FaceEvent.noConfusion h, fun _ h => FaceEvent.noConfusion h⟩
          · rw [countSuccess_append, hcnt]
            simp [countSuccess]
          · intro now' r' he
            cases he
            constructor
            · rw [countSuccess_append, hcnt]
              simp [countSuccess, hS, hRep]
            · intro _; trivial
        · simp only [hRep, Bool.not_true, Bool.false_eq_true, if_false]
          refine ⟨fun habs => by simp [hact] at habs, by simp [hcnt], ?_,
            fun _ _ h => FaceEvent.noConfusion h, fun _ h => FaceEvent.noConfusion h⟩
          intro now' r' he
          cases he
          constructor
          · simp [hcnt, hRep]
          · intro h1
            simp [hcnt] at h1
  | timeoutCheck now =>
      simp only [faceStep, checkTimeout]
      split
      · refine ⟨fun _ => ⟨rfl, rfl, rfl⟩, ?_, fun _ _ h => FaceEvent.noConfusion h,
          fun _ _ h => FaceEvent.noConfusion h, fun _ _ => ?_⟩ <;>
        · split <;> simp [countSuccess]
      · exact ⟨hinv, by simp [countSuccess], fun _ _ h => FaceEvent.noConfusion h,
          fun _ _ h => FaceEvent.noConfusion h, fun _ _ => by simp [countSuccess]⟩

/-- Witness for C9: a qualifying recognition on the initial window. -/
theorem c9_window_invariant_preserved_witness :
    WindowInv resetWindow ∧
    (WindowInv (faceStep ⟨5, 60⟩ resetWindow
        (.recognize 0 ⟨1, 2, 3, 4, "alice".toList, 80⟩)).1 ∧
      countSuccess (faceStep ⟨5, 60⟩ resetWindow
        (.recognize 0 ⟨1, 2, 3, 4, "alice".toList, 80⟩)).2 ≤ 1) := by
  have h := c9_window_invariant_preserved ⟨5, 60⟩ resetWindow
    (.recognize 0 ⟨1, 2, 3, 4, "alice".toList, 80⟩)
    (fun _ => ⟨rfl, rfl, rfl⟩)
  exact ⟨fun _ => ⟨rfl, rfl, rfl⟩, h.1, h.2.1⟩

/-- Claim C1: a `DetectionEvent` received while Idle opens a window, and
any sequence of `N ≥ 1` qualifying recognitions (`is_known` and
`score ≥ score_threshold`) arriving within `window_duration` of the
window's start produces exactly one callback: a single success carrying
the first qualifying recognition's name — later qualifying recognitions
in the same window fire nothing. -/
theorem c1_success_fires_exactly_once (cfg : FaceConfig) (t0 : ℚ)
    (d : FaceDetection) (tr : ℚ × FaceRecognition)
    (trs : List (ℚ × FaceRecognition))
    (hq : ∀ p ∈ tr :: trs, t0 ≤ p.1 ∧ p.1 - t0 < cfg.window_duration ∧
      isSuccess cfg p.2 = true) :
    (faceRun cfg resetWindow
        (FaceEvent.detect t0 d ::
          (tr :: trs).map (fun p => FaceEvent.recognize p.1 p.2))).2
      = [.success tr.2.name (some tr.2)] := by
  have htr := hq tr (List.mem_cons_self tr trs)
  simp only [List.map_cons, faceRun, faceStep]
  rw [show onFaceDetected t0 resetWindow = (startWindow t0, []) by
    simp [onFaceDetected, resetWindow]]
  rw [show onRecognitionResult cfg tr.1 tr.2 (startWindow t0)
      = ({ startWindow t0 with
           last_recognition := some tr.2
           success_reported := true
           last_success_user := tr.2.name },
         [.success tr.2.name (some tr.2)]) by
    unfold onRecognitionResult
    rw [handleExpiry_not_expired (isWindowExpired_eq_false
      (by simp [startWindow]) (by simp [startWindow]; exact htr.2.1))]
    simp [htr.2.2, startWindow, resetWindow]]
  rw [show (faceRun cfg
      { startWindow t0 with
        last_recognition := some tr.2
        success_reported := true
        last_success_user := tr.2.name }
      (trs.map (fun p => FaceEvent.recognize p.1 p.2))).2 = [] from
    faceRun_succeeded cfg t0 trs _ (by simp [startWindow])
      (by simp [startWindow]) (by simp [startWindow])
      (fun q hqmem => ⟨(hq q (List.mem_cons_of_mem tr hqmem)).1,
        (hq q (List.mem_cons_of_mem tr hqmem)).2.1⟩)]
  simp

/-- Witness for C1: two qualifying recognitions inside a 5-second window
yield one success callback, named after the first. -/
theorem c1_success_fires_exactly_once_witness :
    (∀ p ∈ [((1 : ℚ), (⟨1, 2, 3, 4, "alice".toList, 80⟩ : FaceRecognition)),
            (2, ⟨1, 2, 3, 4, "alice".toList, 90⟩)],
      (0 : ℚ) ≤ p.1 ∧ p.1 - 0 < (5 : ℚ) ∧ isSuccess ⟨5, 60⟩ p.2 = true) ∧
    (faceRun ⟨5, 60⟩ resetWindow
        (FaceEvent.detect 0 ⟨1, 2, 3, 4⟩ ::
          [((1 : ℚ), (⟨1, 2, 3, 4, "alice".toList, 80⟩ : FaceRecognition)),
           (2, ⟨1, 2, 3, 4, "alice".toList, 90⟩)].map
            (fun p => FaceEvent.recognize p.1 p.2))).2
      = [.success "alice".toList (some ⟨1, 2, 3, 4, "alice".toList, 80⟩)] := by
  have hq : ∀ p ∈ [((1 : ℚ), (⟨1, 2, 3, 4, "alice".toList, 80⟩ : FaceRecognition)),
      (2, ⟨1, 2, 3, 4, "alice".toList, 90⟩)],
      (0 : ℚ) ≤ p.1 ∧ p.1 - 0 < (5 : ℚ) ∧ isSuccess ⟨5, 60⟩ p.2 = true := by
    intro p hp
    fin_cases hp <;> refine ⟨by norm_num, by norm_num, by decide⟩
  exact ⟨hq, c1_success_fires_exactly_once ⟨5, 60⟩ 0 ⟨1, 2, 3, 4⟩ _ _ hq⟩

/-- Claim C8: a window opened by a detection and fed only failing
recognitions within its duration, followed by a timeout check at or
past expiry, produces exactly one reject callback whose count equals
the number of failing recognitions (carrying the last recognition), and
resets the machine to Idle. -/
theorem c8_reject_fires_exactly_once (cfg : FaceConfig) (t0 : ℚ)
    (d : FaceDetection) (tr : ℚ × FaceRecognition)
    (trs : List (ℚ × FaceRecognition)) (tEnd : ℚ) (rl : ℚ × FaceRecognition)
    (hfail : ∀ p ∈ tr :: trs, t0 ≤ p.1 ∧ p.1 - t0 < cfg.window_duration ∧
      isSuccess cfg p.2 = false)
    (hlast : (tr :: trs).getLast? = some rl)
    (hEnd : cfg.window_duration ≤ tEnd - t0) :
    faceRun cfg resetWindow
        (FaceEvent.detect t0 d ::
          ((tr :: trs).map (fun p => FaceEvent.recognize p.1 p.2)
            ++ [FaceEvent.timeoutCheck tEnd]))
      = (resetWindow, [.reject (trs.length + 1) (some rl.2)]) := by
  have hdetect : faceRun cfg resetWindow [FaceEvent.detect t0 d]
      = (startWindow t0, []) := by
    simp [faceRun, faceStep, onFaceDetected, resetWindow]
  have hfailrun := faceRun_failing cfg t0 (tr :: trs) (startWindow t0)
    (by simp [startWindow]) (by simp [startWindow, resetWindow])
    (by simp [startWindow]) hfail
  have hlastrec :
      ((tr :: trs).map (fun p : ℚ × FaceRecognition => some p.2)).getLastD
          (startWindow t0).last_recognition = some rl.2 := by
    rw [List.getLastD_eq_getLast?, List.getLast?_map, hlast]
    rfl
  have htimeout : faceRun cfg
      { startWindow t0 with
        failure_count := (startWindow t0).failure_count + (tr :: trs).length
        last_recognition :=
          ((tr :: trs).map (fun p => some p.2)).getLastD
            (startWindow t0).last_recognition }
      [FaceEvent.timeoutCheck tEnd]
      = (resetWindow, [.reject (trs.length + 1) (some rl.2)]) := by
    simp only [faceRun, faceStep, hlastrec]
    rw [show checkTimeout cfg tEnd
        { startWindow t0 with
          failure_count := (startWindow t0).failure_count + (tr :: trs).length
          last_recognition := some rl.2 }
        = (resetWindow, [.reject (trs.length + 1) (some rl.2)]) by
      unfold checkTimeout
      rw [if_pos]
      · simp [startWindow, resetWindow]
      · simp [startWindow, resetWindow, isWindowExpired]
        exact hEnd]
    simp
  rw [show FaceEvent.detect t0 d ::
      ((tr :: trs).map (fun p => FaceEvent.recognize p.1 p.2)
        ++ [FaceEvent.timeoutCheck tEnd])
      = [FaceEvent.detect t0 d]
        ++ ((tr :: trs).map (fun p => FaceEvent.recognize p.1 p.2)
          ++ [FaceEvent.timeoutCheck tEnd]) from rfl]
  rw [faceRun_append, hdetect]
  rw [faceRun_append, hfailrun]
  rw [htimeout]
  simp

/-- Witness for C8: two failing recognitions then a timeout check yield
one reject callback counting two attempts. -/
theorem c8_reject_fires_exactly_once_witness :
    (∀ p ∈ [((1 : ℚ), (⟨1, 2, 3, 4, "bob".toList, 10⟩ : FaceRecognition)),
            (2, ⟨1, 2, 3, 4, "unknown".toList, 70⟩)],
      (0 : ℚ) ≤ p.1 ∧ p.1 - 0 < (5 : ℚ) ∧ isSuccess ⟨5, 60⟩ p.2 = false) ∧
    faceRun ⟨5, 60⟩ resetWindow
        (FaceEvent.detect 0 ⟨1, 2, 3, 4⟩ ::
          ([((1 : ℚ), (⟨1, 2, 3, 4, "bob".toList, 10⟩ : FaceRecognition)),
            (2, ⟨1, 2, 3, 4, "unknown".toList, 70⟩)].map
              (fun p => FaceEvent.recognize p.1 p.2)
            ++ [FaceEvent.timeoutCheck 6]))
      = (resetWindow,
         [.reject 2 (some ⟨1, 2, 3, 4, "unknown".toList, 70⟩)]) := by
  have hq : ∀ p ∈ [((1 : ℚ), (⟨1, 2, 3, 4, "bob".toList, 10⟩ : FaceRecognition)),
      (2, ⟨1, 2, 3, 4, "unknown".toList, 70⟩)],
      (0 : ℚ) ≤ p.1 ∧ p.1 - 0 < (5 : ℚ) ∧ isSuccess ⟨5, 60⟩ p.2 = false := by
    intro p hp
    fin_cases hp <;> refine ⟨by norm_num, by norm_num, by decide⟩
  exact ⟨hq, c8_reject_fires_exactly_once ⟨5, 60⟩ 0 ⟨1, 2, 3, 4⟩ _ _ 6 _
    hq rfl (by norm_num)⟩

/-- Claim C3 counterexample: a single qualifying `RecognitionEvent`
delivered while Idle (no `DetectionEvent` ever received) fires the
success callback — the machine is not silent before the first
detection, because `on_recognition_result` itself opens a window when
the current one is expired or inactive. -/
theorem c3_counterexample :
    (faceRun ⟨5, 60⟩ resetWindow
        [.recognize 0 ⟨1, 2, 3, 4, "alice".toList, 80⟩]).2
      = [.success "alice".toList (some ⟨1, 2, 3, 4, "alice".toList, 80⟩)] ∧
    (faceRun ⟨5, 60⟩ resetWindow
        [.recognize 0 ⟨1, 2, 3, 4, "alice".toList, 80⟩]).2 ≠ [] := by
  constructor
  · norm_num [faceRun, faceStep, onRecognitionResult, handleExpiry,
      isWindowExpired, isSuccess, FaceRecognition.is_known, resetWindow,
      startWindow]
    decide
  · norm_num [faceRun, faceStep, onRecognitionResult, handleExpiry,
      isWindowExpired, isSuccess, FaceRecognition.is_known, resetWindow,
      startWindow]
    decide

/-- Claim C3 (amended): while no window has ever been opened, timeout
checks alone produce no callbacks, for any number of checks at any
times; but a RecognitionEvent received while Idle is not silent — it
opens a window by itself, and a qualifying one immediately fires the
success callback. -/
theorem c3_idle_timeout_silence :
    (∀ (cfg : FaceConfig) (ts : List ℚ),
      (faceRun cfg resetWindow (ts.map FaceEvent.timeoutCheck)).2 = []) ∧
    (∀ (cfg : FaceConfig) (now : ℚ) (r : FaceRecognition),
      isSuccess cfg r = true →
      (faceStep cfg resetWindow (.recognize now r)).2
        = [.success r.name (some r)]) := by
  constructor
  · intro cfg ts
    induction ts with
    | nil => rfl
    | cons t ts ih =>
        simp only [List.map_cons, faceRun]
        rw [show faceStep cfg resetWindow (.timeoutCheck t) = (resetWindow, [])
          by simp [faceStep, checkTimeout, resetWindow]]
        simpa using ih
  · intro cfg now r hs
    simp [faceStep, onRecognitionResult, handleExpiry, isWindowExpired,
      resetWindow, startWindow, hs]

/-- Witness for C3 (amended): a qualifying recognition while Idle. -/
theorem c3_idle_timeout_silence_witness :
    isSuccess ⟨5, 60⟩ ⟨1, 2, 3, 4, "alice".toList, 80⟩ = true ∧
    (faceStep ⟨5, 60⟩ resetWindow
        (.recognize 0 ⟨1, 2, 3, 4, "alice".toList, 80⟩)).2
      = [.success "alice".toList (some ⟨1, 2, 3, 4, "alice".toList, 80⟩)] :=
  ⟨by decide, c3_idle_timeout_silence.2 ⟨5, 60⟩ 0 _ (by decide)⟩

end SmartDoor
